import Mathlib

/-!
Verification of the keyword-matching, scoring and report-assembly logic of the
resume-backend service (src/main.py), together with the error-handling shell
around the outbound critique call.  Python strings are modelled as lists of
characters.  The scorer computes int((matched / len(jd_skills)) * 100) in
Python, i.e. in IEEE-754 binary64 floating point; this is embedded exactly:
the quotient and the product are each rounded to 53 significant bits, round to
nearest with ties to even, represented as dyadic numerator-exponent pairs over
the integers, and int() of the nonnegative result truncates toward zero.  The
embedding is exact for the binary64 normal range, which covers every value the
scorer can form for any list short enough to exist in memory (the exponent
only leaves the normal range for lists of length beyond 2 to the power 1022).
The outbound HTTP call is modelled by an oracle mapping the posted prompt to
an outcome (an exception, or a status/body/parsed-content triple).
-/

namespace ResumeBackend

/-- Python strings are modelled as lists of characters. -/
abbrev Str := List Char

/-- Python str.lower(), modelled character-wise with Char.toLower.  All skill
vocabulary data and all concrete inputs used below are ASCII, where the two
agree. -/
def pylower (s : Str) : Str := s.map Char.toLower

/-- Python substring test needle in hay. -/
def pyIn (needle hay : Str) : Bool := decide (needle <:+: hay)

/-- COMMON_SKILLS constant from src/main.py, in source order. -/
def COMMON_SKILLS : List Str :=
  [("python").toList, ("java").toList, ("javascript").toList, ("react").toList,
   ("next.js").toList,
   ("node.js").toList, ("fastapi").toList, ("sql").toList, ("mysql").toList,
   ("postgresql").toList,
   ("mongodb").toList, ("aws").toList, ("docker").toList, ("kubernetes").toList,
   ("git").toList, ("github").toList, ("rest api").toList, ("html").toList,
   ("css").toList,
   ("flutter").toList, ("dart").toList,
   ("machine learning").toList, ("data analysis").toList]

/-- def extract_skills(text) from src/main.py: lower-case the text, then keep
the vocabulary entries occurring as substrings, in vocabulary order. -/
def extract_skills (text : Str) : List Str :=
  COMMON_SKILLS.filter (fun s => pyIn s (pylower text))

/-- matched from ats_keyword_score in src/main.py: the number of entries of
jd_skills occurring as substrings of the lower-cased resume text. -/
def atsMatchedCount (resume_text : Str) (jd_skills : List Str) : Nat :=
  (jd_skills.filter (fun s => pyIn s (pylower resume_text))).length

/-- Number of binary digits of a natural number, via a fuel argument so that
the recursion is structural (the fuel n always suffices since the argument
halves each step); bitsAux fuel 0 = 0, and for n between 1 and fuel the result
b satisfies 2 ^ (b - 1) ≤ n < 2 ^ b. -/
def bitsAux : Nat → Nat → Nat
  | 0, _ => 0
  | fuel + 1, n => if n = 0 then 0 else bitsAux fuel (n / 2) + 1

/-- Number of binary digits of a natural number: bits 0 = 0 and
2 ^ (bits n - 1) ≤ n < 2 ^ bits n for positive n. -/
def bits (n : Nat) : Nat := bitsAux n n

/-- Floor of the base-2 logarithm of the positive rational a / b, computed
over the integers: the bit-length difference d puts a / b strictly between
2 ^ (d - 1) and 2 ^ (d + 1), and one cross-multiplied comparison against
2 ^ d decides between d - 1 and d.  The toNat exponents place the power of
two on the correct side for either sign of d. -/
def ratLog2 (a b : Nat) : ℤ :=
  if a * 2 ^ (((bits b : ℤ) - bits a).toNat) < 2 ^ (((bits a : ℤ) - bits b).toNat) * b
  then (bits a : ℤ) - bits b - 1
  else (bits a : ℤ) - bits b

/-- Nearest integer to a / b with ties to even, the IEEE-754 default rounding
applied to an exact quotient of naturals. -/
def rnte (a b : Nat) : Nat :=
  if 2 * (a % b) < b then a / b
  else if b < 2 * (a % b) then a / b + 1
  else if (a / b) % 2 = 0 then a / b else a / b + 1

/-- Exponent of one unit in the last place of the binary64 value nearest to
a / b: the 53-bit significand of a value in [2 ^ L, 2 ^ (L + 1)) has its least
significant bit at 2 ^ (L - 52). -/
def b64exp (a b : Nat) : ℤ := ratLog2 a b - 52

/-- Binary64 value nearest to a / b (round to nearest, ties to even),
returned as a dyadic pair (c, e) of value c * 2 ^ e with e = b64exp a b: the
quotient is scaled by 2 ^ (-e) via the toNat exponents (one of which is zero)
and rounded to the nearest integer c, ties to even.  Exact for quotients in
the binary64 normal range; a / b = 0 rounds to (0, e). -/
def b64round (a b : Nat) : Nat × ℤ :=
  (rnte (a * 2 ^ ((-(b64exp a b)).toNat)) (b * 2 ^ ((b64exp a b).toNat)), b64exp a b)

/-- Python int() truncation toward zero of the nonnegative dyadic value
c * 2 ^ e: multiply or divide by the power of two according to the sign of e,
with Nat division as floor. -/
def dyadicFloor (p : Nat × ℤ) : Nat := p.1 * 2 ^ (p.2.toNat) / 2 ^ ((-p.2).toNat)

/-- Evaluation of int((m / n) * 100) in IEEE-754 binary64 arithmetic, as the
Python expression in ats_keyword_score performs it: the true division m / n is
correctly rounded to binary64, the product with the exactly representable
100.0 is formed exactly on the dyadic representation and correctly rounded
again, and int() truncates the nonnegative result toward zero. -/
def pyScore (m n : Nat) : Nat :=
  dyadicFloor (b64round ((b64round m n).1 * 100 * 2 ^ (((b64round m n).2).toNat))
                        (2 ^ ((-((b64round m n).2)).toNat)))

/-- def ats_keyword_score(resume_text, jd_skills) from src/main.py: 0 for an
empty target list, otherwise int((matched / len(jd_skills)) * 100) evaluated
in binary64 floating point. -/
def ats_keyword_score (resume_text : Str) (jd_skills : List Str) : Nat :=
  if jd_skills = [] then 0
  else pyScore (atsMatchedCount resume_text jd_skills) jd_skills.length

/-- matched from analyze_resume in src/main.py:
sorted(set(resume_skills) & set(jd_skills)). -/
def matchedSkills (resume_skills jd_skills : List Str) : List Str :=
  Finset.sort (· ≤ ·) (resume_skills.toFinset ∩ jd_skills.toFinset)

/-- missing from analyze_resume in src/main.py:
sorted(set(jd_skills) - set(resume_skills)). -/
def missingSkills (resume_skills jd_skills : List Str) : List Str :=
  Finset.sort (· ≤ ·) (jd_skills.toFinset \ resume_skills.toFinset)

/-- skill_scores from analyze_resume in src/main.py: the dict comprehension
over jd_skills mapping s to 100 if s is in matched else 0, modelled as a
partial lookup function (duplicate keys in the comprehension receive the same
value, so the lookup model is exact). -/
def skill_scores (jd_skills matched : List Str) : Str → Option Nat :=
  fun s => if s ∈ jd_skills then some (if s ∈ matched then 100 else 0) else none

/-- Outcome of the outbound requests.post call in openrouter_think: either the
call (or the subsequent body parse) raised an exception with a message, or a
response arrived carrying a status code, a body text, and the result of
extracting json choices-0-message-content from it (Except.error when that
extraction raises). -/
inductive HttpOutcome where
  | raised (msg : Str)
  | response (status : Nat) (body : Str) (content : Except Str Str)

/-- Python str.strip(): drop leading and trailing whitespace. -/
def pystrip (s : Str) : Str :=
  ((s.dropWhile Char.isWhitespace).reverse.dropWhile Char.isWhitespace).reverse

/-- def openrouter_think(prompt) from src/main.py.  The environment variable
OPENROUTER_API_KEY is the apiKey parameter; the network is the oracle net,
applied to the prompt actually posted (safe_prompt, the first 3000 characters).
An exception anywhere inside the try block is caught and rendered as an
AI-error string; a non-200 status is rendered as an OpenRouter-error string;
the missing-key case returns the fixed placeholder before any request. -/
def openrouter_think (apiKey : Option Str) (net : Str → HttpOutcome)
    (prompt : Str) : Str :=
  match apiKey with
  | none => ("AI analysis unavailable (API key not configured).").toList
  | some _ =>
    match net (prompt.take 3000) with
    | HttpOutcome.raised e => ("AI error: ").toList ++ e
    | HttpOutcome.response status body content =>
      if status ≠ 200 then ("OpenRouter error: ").toList ++ body
      else
        match content with
        | Except.error e => ("AI error: ").toList ++ e
        | Except.ok c => pystrip c

/-- Python ", ".join of a list of strings. -/
def joinComma : List Str → Str
  | [] => []
  | [s] => s
  | s :: rest => s ++ (", ").toList ++ joinComma rest

/-- Python idiom x or y for strings: the join result if nonempty, else the
literal None marker used in the prompt template. -/
def joinOrNone (l : List Str) : Str :=
  if joinComma l = [] then ("None").toList else joinComma l

/-- prompt construction inside ai_analysis in src/main.py: the f-string
template, embedding the first 800 characters of the job description, the first
800 characters of the resume text, the score, and the joined matched and
missing skill lists. -/
def aiPrompt (job_description resume_text : Str) (score : Nat)
    (matched missing : List Str) : Str :=
  ("\nJob Description:\n").toList ++ job_description.take 800
    ++ ("\n\nResume:\n").toList ++ resume_text.take 800
    ++ ("\n\nATS Score: ").toList ++ (toString score).toList
    ++ ("%\n\nMatched Skills: ").toList ++ joinOrNone matched
    ++ ("\nMissing Skills: ").toList ++ joinOrNone missing
    ++ ("\n\nAnswer as a hiring manager:\n").toList
    ++ ("1. Why is the ATS score this value?\n").toList
    ++ ("2. Resume weaknesses.\n").toList
    ++ ("3. Skills to prioritize.\n").toList
    ++ ("4. Real projects to build for this role.\n").toList
    ++ ("5. A realistic 60-day improvement plan.\n").toList

/-- def ai_analysis(...) from src/main.py: builds the prompt and forwards it to
openrouter_think; the Python dict wrapper with single key analysis_text is
modelled as the contained string. -/
def ai_analysis (resume_text job_description : Str) (score : Nat)
    (matched missing : List Str) (apiKey : Option Str)
    (net : Str → HttpOutcome) : Str :=
  openrouter_think apiKey net (aiPrompt job_description resume_text score matched missing)

/-- suffix computation in analyze_resume: resume.filename.split(".")[-1].lower(). -/
def fileSuffix (filename : Str) : Str :=
  pylower ((filename.splitOn '.').getLastD [])

/-- Successful response record of the analyze-resume endpoint.  The uuid-named
generated file of update_docx_resume is I/O outside the data model; the
has_download field records that a download id is produced exactly for docx
uploads. -/
structure MatchReport where
  score : Nat
  matched_skills : List Str
  missing_skills : List Str
  skill_scores : Str → Option Nat
  analysis_text : Str
  has_download : Bool

/-- Result of the analyze-resume endpoint: the error record for unsupported
file types, or the assembled report. -/
inductive AnalyzeResult where
  | error (msg : Str)
  | ok (report : MatchReport)

/-- async def analyze_resume(resume, job_description) from src/main.py.
fileText is the text that document extraction yields for the uploaded bytes
(the pdfplumber or python-docx collaborator, an external oracle); apiKey and
net are the critique-call collaborators threaded through to ai_analysis. -/
def analyze_resume (filename fileText job_description : Str)
    (apiKey : Option Str) (net : Str → HttpOutcome) : AnalyzeResult :=
  let suffix := fileSuffix filename
  if suffix ∉ [("pdf").toList, ("docx").toList] then
    AnalyzeResult.error (("Only PDF and DOCX supported").toList)
  else
    let resume_text := fileText
    let resume_skills := extract_skills resume_text
    let jd_skills := extract_skills job_description
    let matched := matchedSkills resume_skills jd_skills
    let missing := missingSkills resume_skills jd_skills
    let score := ats_keyword_score resume_text jd_skills
    let scores := skill_scores jd_skills matched
    let ai := ai_analysis resume_text job_description score matched missing apiKey net
    AnalyzeResult.ok ⟨score, matched, missing, scores, ai, decide (suffix = ("docx").toList)⟩

/-- Occurrence of s in text ignoring letter case, the matching notion named by
the specification of the skill matcher. -/
def occursCaseInsensitive (s text : Str) : Prop :=
  pylower s <:+: pylower text

/-- COMMON_SKILLS has no duplicate entries. -/
theorem common_skills_nodup : COMMON_SKILLS.Nodup := by decide

/-- Every vocabulary entry is already lower-case. -/
theorem common_skills_lower : ∀ s ∈ COMMON_SKILLS, pylower s = s := by decide

/-- C4: extract_skills returns exactly the vocabulary entries occurring
case-insensitively as substrings of the text, hence a subset of the
vocabulary, and the empty text yields the empty match list. -/
theorem extract_skills_contract :
    (∀ text s : Str,
      s ∈ extract_skills text ↔ s ∈ COMMON_SKILLS ∧ occursCaseInsensitive s text) ∧
    (∀ text s : Str, s ∈ extract_skills text → s ∈ COMMON_SKILLS) ∧
    extract_skills [] = [] := by
  have hmem : ∀ text s : Str,
      s ∈ extract_skills text ↔ s ∈ COMMON_SKILLS ∧ occursCaseInsensitive s text := by
    intro text s
    constructor
    · intro h
      have hv := (List.mem_filter.mp h).1
      have hb := (List.mem_filter.mp h).2
      have hin : s <:+: pylower text := by
        simpa [pyIn] using hb
      refine ⟨hv, ?_⟩
      unfold occursCaseInsensitive
      rw [common_skills_lower s hv]
      exact hin
    · rintro ⟨hv, ho⟩
      have hin : pylower s <:+: pylower text := ho
      rw [common_skills_lower s hv] at hin
      exact List.mem_filter.mpr ⟨hv, by simpa [pyIn] using hin⟩
  refine ⟨hmem, ?_, by decide⟩
  intro text s h
  exact ((hmem text s).mp h).1

/-- C4 witness: the contract applied at a concrete text. -/
theorem extract_skills_contract_witness :
    ("docker").toList ∈ COMMON_SKILLS :=
  extract_skills_contract.2.1 (("docker").toList) (("docker").toList) (by decide)

/-- C2 counterexample: on the text python java the matcher returns the
matches in vocabulary order, python before java, which is not sorted
ascending. -/
theorem extract_skills_unsorted_counterexample :
    extract_skills (("python java").toList)
      = [("python").toList, ("java").toList] ∧
    ¬ List.Sorted (· ≤ ·) (extract_skills (("python java").toList)) := by
  constructor
  · decide
  · decide

/-- C2 amended: the matcher returns matches in vocabulary order (its output is
a sublist of COMMON_SKILLS); the sorted-ascending guarantee holds for the
report assembler, whose matched and missing lists are sorted. -/
theorem extract_vocab_order_report_sorted :
    (∀ text : Str, (extract_skills text).Sublist COMMON_SKILLS) ∧
    (∀ resume_skills jd_skills : List Str,
      List.Sorted (· ≤ ·) (matchedSkills resume_skills jd_skills) ∧
      List.Sorted (· ≤ ·) (missingSkills resume_skills jd_skills)) :=
  ⟨fun _ => List.filter_sublist _,
   fun _ _ => ⟨Finset.sort_sorted _ _, Finset.sort_sorted _ _⟩⟩

/-- C3: matched and missing partition the job-description skill set: their
union is the job-description set and their intersection is empty. -/
theorem matched_missing_partition (resume_skills jd_skills : List Str) :
    (matchedSkills resume_skills jd_skills).toFinset
        ∪ (missingSkills resume_skills jd_skills).toFinset = jd_skills.toFinset ∧
    (matchedSkills resume_skills jd_skills).toFinset
        ∩ (missingSkills resume_skills jd_skills).toFinset = ∅ := by
  have hm : (matchedSkills resume_skills jd_skills).toFinset
      = resume_skills.toFinset ∩ jd_skills.toFinset := Finset.sort_toFinset _ _
  have hmi : (missingSkills resume_skills jd_skills).toFinset
      = jd_skills.toFinset \ resume_skills.toFinset := Finset.sort_toFinset _ _
  rw [hm, hmi]
  constructor
  · ext s
    simp only [Finset.mem_union, Finset.mem_inter, Finset.mem_sdiff]
    tauto
  · rw [Finset.eq_empty_iff_forall_not_mem]
    intro s
    simp only [Finset.mem_inter, Finset.mem_sdiff]
    tauto

/-- bitsAux of zero is zero for every fuel. -/
theorem bitsAux_zero (fuel : Nat) : bitsAux fuel 0 = 0 := by
  cases fuel <;> rfl

/-- Characterisation of bitsAux when the fuel suffices: the result is the
binary length. -/
theorem bitsAux_spec : ∀ fuel n, n ≤ fuel → n ≠ 0 →
    2 ^ (bitsAux fuel n - 1) ≤ n ∧ n < 2 ^ bitsAux fuel n := by
  intro fuel
  induction fuel with
  | zero => intro n hn h0; omega
  | succ f ih =>
    intro n hn h0
    simp only [bitsAux, if_neg h0]
    by_cases h1 : n = 1
    · subst h1
      simp [bitsAux_zero]
    · have h2 : 2 ≤ n := by omega
      have hd0 : n / 2 ≠ 0 := by omega
      have hdf : n / 2 ≤ f := by omega
      obtain ⟨hlo, hhi⟩ := ih (n / 2) hdf hd0
      have hb1 : 1 ≤ bitsAux f (n / 2) := by
        by_contra hc
        have hz : bitsAux f (n / 2) = 0 := by omega
        rw [hz] at hhi
        simp at hhi
        omega
      have hpow : 2 ^ bitsAux f (n / 2) = 2 * 2 ^ (bitsAux f (n / 2) - 1) := by
        conv_lhs => rw [show bitsAux f (n / 2) = (bitsAux f (n / 2) - 1) + 1 by omega]
        rw [pow_succ]
        ring
      have e1 : bitsAux f (n / 2) + 1 - 1 = bitsAux f (n / 2) := by omega
      have e2 : (2:Nat) ^ (bitsAux f (n / 2) + 1) = 2 * 2 ^ bitsAux f (n / 2) := by
        rw [pow_succ]; ring
      rw [e1, e2]
      omega

/-- bits is the binary length: positive n lies between the two adjacent
powers of two determined by bits n. -/
theorem bits_spec (n : Nat) (h : n ≠ 0) :
    2 ^ (bits n - 1) ≤ n ∧ n < 2 ^ bits n :=
  bitsAux_spec n n le_rfl h

/-- Every natural is below 2 to its binary length. -/
theorem bits_lt (n : Nat) : n < 2 ^ bits n := by
  by_cases h : n = 0
  · subst h; simp [bits, bitsAux_zero]
  · exact (bits_spec n h).2

/-- Binary length is bounded by any exponent dominating the number. -/
theorem bits_le_of_lt_pow {n t : Nat} (h : n < 2 ^ t) : bits n ≤ t := by
  by_cases h0 : n = 0
  · subst h0; simp [bits, bitsAux_zero]
  · obtain ⟨hlo, _⟩ := bits_spec n h0
    by_contra hc
    push_neg at hc
    have hp : (2:Nat) ^ t ≤ 2 ^ (bits n - 1) :=
      Nat.pow_le_pow_right (by norm_num) (by omega)
    omega

/-- Binary length is monotone. -/
theorem bits_mono {m n : Nat} (h : m ≤ n) : bits m ≤ bits n :=
  bits_le_of_lt_pow (lt_of_le_of_lt h (bits_lt n))

/-- Binary length of a power of two. -/
theorem bits_two_pow (k : Nat) : bits (2 ^ k) = k + 1 := by
  have h1 : bits (2 ^ k) ≤ k + 1 :=
    bits_le_of_lt_pow (Nat.pow_lt_pow_right (by norm_num) (by omega))
  have h0 : (2:Nat) ^ k ≠ 0 := (pow_pos (by norm_num) k).ne'
  obtain ⟨hlo, hhi⟩ := bits_spec (2 ^ k) h0
  have h2 : k < bits (2 ^ k) := by
    by_contra hc
    push_neg at hc
    have : (2:Nat) ^ bits (2 ^ k) ≤ 2 ^ k := Nat.pow_le_pow_right (by norm_num) hc
    omega
  omega

/-- Upper estimate for ratLog2 from the bit lengths. -/
theorem ratLog2_le (a b : Nat) : ratLog2 a b ≤ (bits a : ℤ) - bits b := by
  unfold ratLog2
  split <;> omega

/-- Rounding to nearest never overshoots an integer bound on the quotient:
when a / b ≤ N the rounded value is at most N. -/
theorem rnte_le {a b N : Nat} (hb : 0 < b) (h : a ≤ N * b) : rnte a b ≤ N := by
  have hfl : a / b ≤ N := by
    calc a / b ≤ N * b / b := Nat.div_le_div_right h
      _ = N := Nat.mul_div_cancel _ hb
  have hlt : 0 < a % b → a / b + 1 ≤ N := by
    intro hr
    have hmod := Nat.div_add_mod a b
    have h2 : b * (a / b) < b * N := by
      calc b * (a / b) < a := by omega
        _ ≤ N * b := h
        _ = b * N := Nat.mul_comm N b
    have h3 := Nat.lt_of_mul_lt_mul_left h2
    omega
  unfold rnte
  split
  · exact hfl
  · split
    · rename_i h1 h2
      exact hlt (by omega)
    · split
      · exact hfl
      · rename_i h1 h2 h3
        exact hlt (by omega)

/-- Exponent bound for b64round from the bit lengths of its inputs. -/
theorem b64exp_le (a b t : Nat) (h : bits a ≤ bits b + t) :
    (b64round a b).2 ≤ (t : ℤ) - 52 := by
  show b64exp a b ≤ (t : ℤ) - 52
  unfold b64exp
  have := ratLog2_le a b
  omega

/-- Mantissa bound for b64round: a quotient bounded by the integer N rounds
to a dyadic value bounded by N. -/
theorem b64round_num_le (a b N : Nat) (hb : 0 < b) (h : a ≤ N * b) :
    (b64round a b).1 ≤ N * 2 ^ ((-(b64round a b).2).toNat) := by
  show rnte (a * 2 ^ ((-(b64exp a b)).toNat)) (b * 2 ^ ((b64exp a b).toNat))
      ≤ N * 2 ^ ((-(b64exp a b)).toNat)
  apply rnte_le (Nat.mul_pos hb (pow_pos (by norm_num) _))
  calc a * 2 ^ ((-(b64exp a b)).toNat)
      ≤ N * b * 2 ^ ((-(b64exp a b)).toNat) :=
        Nat.mul_le_mul_right _ h
    _ ≤ N * b * 2 ^ ((-(b64exp a b)).toNat) * 2 ^ ((b64exp a b).toNat) :=
        Nat.le_mul_of_pos_right _ (pow_pos (by norm_num) _)
    _ = N * 2 ^ ((-(b64exp a b)).toNat) * (b * 2 ^ ((b64exp a b).toNat)) := by ring

/-- Range of the float pipeline: for m ≤ n the binary64 evaluation of
int((m / n) * 100) is at most 100, because neither rounding overshoots the
representable bounds 1 and 100. -/
theorem pyScore_le_100 (m n : Nat) (hn : 0 < n) (hmn : m ≤ n) : pyScore m n ≤ 100 := by
  have he1 : ((b64round m n).2).toNat = 0 := by
    have h1 : (b64round m n).2 ≤ (0 : ℤ) - 52 :=
      b64exp_le m n 0 (by have := bits_mono hmn; omega)
    exact Int.toNat_of_nonpos (by omega)
  have hc1 : (b64round m n).1 ≤ 2 ^ ((-(b64round m n).2).toNat) := by
    have h := b64round_num_le m n 1 hn (by omega)
    simpa using h
  unfold pyScore dyadicFloor
  rw [he1]
  simp only [pow_zero, mul_one]
  have hb2 : (0:Nat) < 2 ^ ((-(b64round m n).2).toNat) := pow_pos (by norm_num) _
  have ha2 : (b64round m n).1 * 100 ≤ 100 * 2 ^ ((-(b64round m n).2).toNat) := by
    calc (b64round m n).1 * 100 ≤ 2 ^ ((-(b64round m n).2).toNat) * 100 :=
        Nat.mul_le_mul_right _ hc1
      _ = 100 * 2 ^ ((-(b64round m n).2).toNat) := Nat.mul_comm _ _
  have hc2 := b64round_num_le ((b64round m n).1 * 100)
      (2 ^ ((-(b64round m n).2).toNat)) 100 hb2 ha2
  have he2 : ((b64round ((b64round m n).1 * 100)
      (2 ^ ((-(b64round m n).2).toNat))).2).toNat = 0 := by
    have hbitsa : bits ((b64round m n).1 * 100)
        ≤ ((-(b64round m n).2).toNat) + 7 := by
      apply bits_le_of_lt_pow
      calc (b64round m n).1 * 100 ≤ 2 ^ ((-(b64round m n).2).toNat) * 100 :=
          Nat.mul_le_mul_right _ hc1
        _ < 2 ^ ((-(b64round m n).2).toNat) * 2 ^ 7 := by
            have h128 : (100:Nat) < 2 ^ 7 := by norm_num
            exact mul_lt_mul_of_pos_left h128 hb2
        _ = 2 ^ (((-(b64round m n).2).toNat) + 7) := by rw [pow_add]
    have hbitsb : bits (2 ^ ((-(b64round m n).2).toNat))
        = ((-(b64round m n).2).toNat) + 1 := bits_two_pow _
    have h1 : (b64round ((b64round m n).1 * 100)
        (2 ^ ((-(b64round m n).2).toNat))).2 ≤ (6 : ℤ) - 52 :=
      b64exp_le _ _ 6 (by omega)
    exact Int.toNat_of_nonpos (by omega)
  rw [he2]
  simp only [pow_zero, mul_one]
  calc (b64round ((b64round m n).1 * 100) (2 ^ ((-(b64round m n).2).toNat))).1
        / 2 ^ ((-(b64round ((b64round m n).1 * 100)
            (2 ^ ((-(b64round m n).2).toNat))).2).toNat)
      ≤ 100 * 2 ^ ((-(b64round ((b64round m n).1 * 100)
            (2 ^ ((-(b64round m n).2).toNat))).2).toNat)
        / 2 ^ ((-(b64round ((b64round m n).1 * 100)
            (2 ^ ((-(b64round m n).2).toNat))).2).toNat) := Nat.div_le_div_right hc2
    _ = 100 := Nat.mul_div_cancel _ (pow_pos (by norm_num) _)

/-- Validation of the binary64 model at float-sensitive inputs: with 29 of 50
matches the float evaluation yields 57 although the exact floor is 58, and
with 29 of 100 it yields 28 although the exact floor is 29 (the well-known
binary64 values 0.58 * 100 = 57.99999999999999 and
0.29 * 100 = 28.999999999999996); at the narrow fractions 1 of 3 and 2 of 3
the float evaluation agrees with the exact floor. -/
theorem pyScore_float_validation :
    pyScore 29 50 = 57 ∧ 29 * 100 / 50 = 58 ∧
    pyScore 29 100 = 28 ∧ 29 * 100 / 100 = 29 ∧
    pyScore 2 3 = 66 ∧ pyScore 1 3 = 33 ∧ pyScore 5 5 = 100 := by decide

set_option maxHeartbeats 1000000 in
set_option maxRecDepth 4000 in
/-- Agreement of the binary64 evaluation with the exact floor for every
denominator reachable through the matcher (the vocabulary has 23 entries, so
extracted target lists have length at most 23); the first divergences appear
only at denominator 50. -/
theorem pyScore_agrees_small :
    ∀ n < 24, ∀ m < 24, m ≤ n → 0 < n → pyScore m n = m * 100 / n := by decide

/-- C6: the score always lies between 0 and 100, and an empty target skill
list yields score 0 whatever the resume text. -/
theorem ats_score_range (resume_text : Str) (jd_skills : List Str) :
    ats_keyword_score resume_text jd_skills ≤ 100 ∧
    (jd_skills = [] → ats_keyword_score resume_text jd_skills = 0) := by
  constructor
  · by_cases h : jd_skills = []
    · simp [ats_keyword_score, h]
    · rw [ats_keyword_score, if_neg h]
      have hm : atsMatchedCount resume_text jd_skills ≤ jd_skills.length :=
        (List.filter_sublist _).length_le
      have hn : 0 < jd_skills.length := List.length_pos.mpr h
      exact pyScore_le_100 _ _ hn hm
  · intro h
    simp [ats_keyword_score, h]

/-- C6 witness: the range theorem applied at a concrete resume and the empty
target list, discharging the emptiness hypothesis. -/
theorem ats_score_range_witness :
    ats_keyword_score (("docker").toList) [] = 0 :=
  (ats_score_range (("docker").toList) []).2 rfl

/-- C1 counterexample: with target skills aws, docker, kubernetes and a resume
matching exactly two of them, the code returns 66 while the claimed
round(matched divided by total times 100) is 67, so the scorer does not
round. -/
theorem ats_round_counterexample :
    ats_keyword_score (("aws docker").toList)
      [("aws").toList, ("docker").toList, ("kubernetes").toList] = 66 ∧
    round ((atsMatchedCount (("aws docker").toList)
        [("aws").toList, ("docker").toList, ("kubernetes").toList] : ℚ) / 3 * 100)
      = (67 : ℤ) := by
  constructor
  · decide
  · have h2 : atsMatchedCount (("aws docker").toList)
        [("aws").toList, ("docker").toList, ("kubernetes").toList] = 2 := by decide
    rw [h2, round_eq, Int.floor_eq_iff]
    constructor <;> norm_num

/-- C1 amended: the scorer truncates rather than rounds: it returns the
binary64 evaluation of matched over total times 100 truncated toward zero by
int(), which for every target list the matcher can produce (a nonempty
extracted skill list, of at most 23 vocabulary entries) equals the exact
floor of matched times 100 over total; the one-of-three example still scores
33. -/
theorem ats_score_truncates :
    (∀ (resume_text jd_text : Str), extract_skills jd_text ≠ [] →
      ats_keyword_score resume_text (extract_skills jd_text)
        = atsMatchedCount resume_text (extract_skills jd_text) * 100
            / (extract_skills jd_text).length) ∧
    ats_keyword_score (("i use docker daily").toList)
      [("aws").toList, ("docker").toList, ("kubernetes").toList] = 33 := by
  constructor
  · intro r jd hne
    rw [ats_keyword_score, if_neg hne]
    have h23 : COMMON_SKILLS.length = 23 := by decide
    have hlen : (extract_skills jd).length < 24 := by
      have h1 : (extract_skills jd).length ≤ COMMON_SKILLS.length :=
        (List.filter_sublist _).length_le
      omega
    have hm : atsMatchedCount r (extract_skills jd) ≤ (extract_skills jd).length :=
      (List.filter_sublist _).length_le
    have hpos : 0 < (extract_skills jd).length := List.length_pos.mpr hne
    exact pyScore_agrees_small _ hlen _ (by omega) hm hpos
  · decide

/-- C1 witness: the truncation identity applied at a concrete resume and job
description, discharging the nonemptiness hypothesis. -/
theorem ats_score_truncates_witness :
    ats_keyword_score (("aws docker").toList)
        (extract_skills (("docker and kubernetes").toList))
      = atsMatchedCount (("aws docker").toList)
            (extract_skills (("docker and kubernetes").toList)) * 100
        / (extract_skills (("docker and kubernetes").toList)).length :=
  ats_score_truncates.1 (("aws docker").toList)
    (("docker and kubernetes").toList) (by decide)

/-- C5 counterexample: for a target skill outside the vocabulary the two
computations disagree: on resume rust with target list rust the scorer counts
one match, while intersecting the extracted resume skills with the target
list gives the empty matched list. -/
theorem score_parity_counterexample :
    atsMatchedCount (("rust").toList) [("rust").toList] = 1 ∧
    matchedSkills (extract_skills (("rust").toList)) [("rust").toList] = [] := by
  constructor
  · decide
  · have h : extract_skills (("rust").toList) = [] := by decide
    rw [h]
    simp [matchedSkills]

/-- C5 amended: parity holds on the pipeline of analyze_resume, where the
target list is extracted from the job description (hence consists of distinct
vocabulary entries): the matched count used by the scorer equals the length of
the matched list of the report. -/
theorem score_parity_on_pipeline (resume_text jd_text : Str) :
    atsMatchedCount resume_text (extract_skills jd_text)
      = (matchedSkills (extract_skills resume_text) (extract_skills jd_text)).length := by
  have hnodup : (extract_skills jd_text).Nodup := common_skills_nodup.filter _
  have key : (extract_skills resume_text).toFinset ∩ (extract_skills jd_text).toFinset
      = ((extract_skills jd_text).filter
          (fun s => pyIn s (pylower resume_text))).toFinset := by
    ext s
    simp only [Finset.mem_inter, List.mem_toFinset, List.mem_filter, extract_skills]
    tauto
  rw [matchedSkills, Finset.length_sort, key,
    List.toFinset_card_of_nodup (hnodup.filter _)]
  rfl

/-- C7: the per-skill score map is defined exactly on the job-description
skills, sending a skill to 100 precisely when it lies in both skill sets (the
matched set) and to 0 otherwise. -/
theorem skill_scores_contract (resume_skills jd_skills : List Str) (s : Str) :
    (s ∉ jd_skills →
      skill_scores jd_skills (matchedSkills resume_skills jd_skills) s = none) ∧
    (s ∈ jd_skills →
      skill_scores jd_skills (matchedSkills resume_skills jd_skills) s
        = some (if s ∈ resume_skills ∧ s ∈ jd_skills then 100 else 0)) := by
  have hmem : s ∈ matchedSkills resume_skills jd_skills
      ↔ s ∈ resume_skills ∧ s ∈ jd_skills := by
    simp [matchedSkills, Finset.mem_sort]
  constructor
  · intro h
    simp [skill_scores, h]
  · intro h
    simp only [skill_scores, if_pos h]
    by_cases hm : s ∈ resume_skills ∧ s ∈ jd_skills
    · rw [if_pos (hmem.mpr hm), if_pos hm]
    · rw [if_neg (fun hc => hm (hmem.mp hc)), if_neg hm]

/-- C7 witness: the contract applied at concrete skill sets, discharging the
membership hypothesis. -/
theorem skill_scores_contract_witness :
    skill_scores [("docker").toList]
        (matchedSkills [("docker").toList] [("docker").toList]) (("docker").toList)
      = some (if ("docker").toList ∈ ([("docker").toList] : List Str)
            ∧ ("docker").toList ∈ ([("docker").toList] : List Str) then 100 else 0) :=
  (skill_scores_contract [("docker").toList] [("docker").toList]
    (("docker").toList)).2 (by decide)

/-- C8: the critique call degrades gracefully at every boundary failure: a
missing API key yields the fixed placeholder before any request; an exception
from the request (network, timeout) yields an AI-error string; a non-200
response yields an OpenRouter-error string; a failing body parse of a 200
response yields an AI-error string.  The model is a total function, so no case
escapes as an exception. -/
theorem openrouter_think_graceful :
    (∀ (net : Str → HttpOutcome) (prompt : Str),
      openrouter_think none net prompt
        = ("AI analysis unavailable (API key not configured).").toList) ∧
    (∀ (k : Str) (net : Str → HttpOutcome) (prompt e : Str),
      net (prompt.take 3000) = HttpOutcome.raised e →
        openrouter_think (some k) net prompt = ("AI error: ").toList ++ e) ∧
    (∀ (k : Str) (net : Str → HttpOutcome) (prompt : Str) (status : Nat)
        (body : Str) (content : Except Str Str),
      net (prompt.take 3000) = HttpOutcome.response status body content →
      status ≠ 200 →
        openrouter_think (some k) net prompt = ("OpenRouter error: ").toList ++ body) ∧
    (∀ (k : Str) (net : Str → HttpOutcome) (prompt body e : Str),
      net (prompt.take 3000) = HttpOutcome.response 200 body (Except.error e) →
        openrouter_think (some k) net prompt = ("AI error: ").toList ++ e) := by
  refine ⟨fun _ _ => rfl, ?_, ?_, ?_⟩
  · intro k net prompt e h
    simp [openrouter_think, h]
  · intro k net prompt status body content h hs
    simp [openrouter_think, h, hs]
  · intro k net prompt body e h
    simp [openrouter_think, h]

/-- C8 witness: the raised-exception case applied at a concrete prompt against
a network oracle that always raises. -/
theorem openrouter_think_graceful_witness :
    openrouter_think (some (("key").toList))
        (fun _ => HttpOutcome.raised (("timeout").toList)) (("hello").toList)
      = ("AI error: ").toList ++ ("timeout").toList :=
  openrouter_think_graceful.2.1 (("key").toList)
    (fun _ => HttpOutcome.raised (("timeout").toList)) (("hello").toList)
    (("timeout").toList) rfl

/-- C9: when the lower-cased final extension of the uploaded filename is
neither pdf nor docx, analyze_resume returns the fixed error record, whatever
the extracted text, the job description, the API key and the network oracle
are; the result depends on none of them, so no extraction, scoring or critique
call contributes to it. -/
theorem unsupported_extension_rejected
    (filename fileText job_description : Str)
    (apiKey : Option Str) (net : Str → HttpOutcome)
    (h : fileSuffix filename ∉ [("pdf").toList, ("docx").toList]) :
    analyze_resume filename fileText job_description apiKey net
      = AnalyzeResult.error (("Only PDF and DOCX supported").toList) := by
  rw [analyze_resume]
  simp only [if_pos h]

/-- C9 witness: a txt upload is rejected, with arbitrary concrete values for
the remaining inputs. -/
theorem unsupported_extension_rejected_witness :
    analyze_resume (("resume.txt").toList) (("python").toList)
        (("python").toList) none (fun _ => HttpOutcome.raised [])
      = AnalyzeResult.error (("Only PDF and DOCX supported").toList) :=
  unsupported_extension_rejected (("resume.txt").toList) (("python").toList)
    (("python").toList) none (fun _ => HttpOutcome.raised []) (by decide)

/-- C10: the critique service sees bounded input: the assembled prompt is
unchanged when the job description and resume text are replaced by their first
800 characters, the string actually posted by openrouter_think is unchanged
when the prompt is replaced by its first 3000 characters, and that posted
prefix has length at most 3000. -/
theorem prompt_truncation_bound :
    (∀ (jd r : Str) (score : Nat) (matched missing : List Str),
      aiPrompt jd r score matched missing
        = aiPrompt (jd.take 800) (r.take 800) score matched missing) ∧
    (∀ (apiKey : Option Str) (net : Str → HttpOutcome) (p : Str),
      openrouter_think apiKey net p = openrouter_think apiKey net (p.take 3000)) ∧
    (∀ p : Str, (p.take 3000).length ≤ 3000) := by
  refine ⟨?_, ?_, ?_⟩
  · intro jd r score matched missing
    have hj : (jd.take 800).take 800 = jd.take 800 := by
      rw [List.take_take, Nat.min_self]
    have hr : (r.take 800).take 800 = r.take 800 := by
      rw [List.take_take, Nat.min_self]
    unfold aiPrompt
    rw [hj, hr]
  · intro apiKey net p
    have hp : (p.take 3000).take 3000 = p.take 3000 := by
      rw [List.take_take, Nat.min_self]
    cases apiKey with
    | none => rfl
    | some k =>
      unfold openrouter_think
      rw [hp]
  · intro p
    exact List.length_take_le _ _

end ResumeBackend
